import Mathlib

/-!
Verification of the resource-tracking and endpoint-freezing engine of
`keras/export/export_lib.py` (`ExportArchive`, `TFSMLayer` and the helper
`_list_variables_used_by_fns`), via a shallow embedding of the module's
state and operations.  Host-runtime collaborators (the TensorFlow tracing
compiler, the SavedModel container format, JAX) are represented by the
data the source code actually inspects on them: lists of concrete traces,
the variables each trace references, attribute tables of a loaded
artifact, and so on.  Python object identity is modelled by a numeric
`vid`; Python sets of ids are modelled by lists used only for membership.
-/

set_option maxRecDepth 4000

namespace KerasExport

/-- A parameter handle.  `vid` models Python object identity (`id(v)`);
`trainable` is the variable's trainable flag. -/
structure Variable where
  vid : Nat
  trainable : Bool
deriving DecidableEq

/-- A concrete (shape/dtype-specialized) trace, as exposed by the tracing
collaborator: the parameters it references (`vars`, modelling the `.variables` attribute) and the ones it
reports trainable (`trainable_variables`). -/
structure ConcreteFn where
  trainable_variables : List Variable
  vars : List Variable
deriving DecidableEq

/-- A function object as consumed by `_list_variables_used_by_fns`, per its
three `hasattr` branches: a generic `tf.function` exposing
`concrete_functions`, some other callable exposing `get_concrete_function`,
or a bare concrete function. -/
inductive Fn
  | generic (concrete_functions : List ConcreteFn)
  | traceable (cf : ConcreteFn)
  | concrete (cf : ConcreteFn)
deriving DecidableEq

/-- The concrete functions a `Fn` resolves to: the three branches at the
top of the `for fn in fns` loop of `_list_variables_used_by_fns`. -/
def Fn.concreteFns : Fn → List ConcreteFn
  | .generic cfs => cfs
  | .traceable cf => [cf]
  | .concrete cf => [cf]

/-- Loop state of `_list_variables_used_by_fns`: the two ordered result
lists plus the two id sets. -/
structure CollectState where
  trainable_variables : List Variable
  non_trainable_variables : List Variable
  trainable_variables_ids : List Nat
  non_trainable_variables_ids : List Nat
deriving DecidableEq

/-- Body of the `for v in concrete_fn.trainable_variables` loop: append
unless the id is already in `trainable_variables_ids`. -/
def addTrainableVar (s : CollectState) (v : Variable) : CollectState :=
  if v.vid ∈ s.trainable_variables_ids then s
  else
    { s with
      trainable_variables := s.trainable_variables ++ [v]
      trainable_variables_ids := s.trainable_variables_ids ++ [v.vid] }

/-- Body of the `for v in concrete_fn.variables` loop: append to the
non-trainable partition unless the id is already in either id set. -/
def addNonTrainableVar (s : CollectState) (v : Variable) : CollectState :=
  if v.vid ∈ s.trainable_variables_ids ∨ v.vid ∈ s.non_trainable_variables_ids then s
  else
    { s with
      non_trainable_variables := s.non_trainable_variables ++ [v]
      non_trainable_variables_ids := s.non_trainable_variables_ids ++ [v.vid] }

/-- Processing of one concrete function: first its `trainable_variables`,
then all of its `variables`. -/
def processConcreteFn (s : CollectState) (cf : ConcreteFn) : CollectState :=
  let s1 := cf.trainable_variables.foldl addTrainableVar s
  cf.vars.foldl addNonTrainableVar s1

/-- The helper `_list_variables_used_by_fns(fns)` from `export_lib.py`. -/
def list_variables_used_by_fns (fns : List Fn) : List Variable × List Variable :=
  let s := fns.foldl (fun s fn => fn.concreteFns.foldl processConcreteFn s)
    ⟨[], [], [], []⟩
  (s.trainable_variables, s.non_trainable_variables)

/-- Variables of one concrete trace in the order the implementation scans
them: the trace's trainable list first, then its full variable list. -/
def cfVars (cf : ConcreteFn) : List Variable :=
  cf.trainable_variables ++ cf.vars

/-- Variables of one function in scan order. -/
def fnVars (fn : Fn) : List Variable :=
  (fn.concreteFns.map cfVars).flatten

/-- The full encounter stream: every variable mention, in the order the
implementation scans them, over the functions in registration order. -/
def encVars (fns : List Fn) : List Variable :=
  (fns.map fnVars).flatten

/-- Specification-level step ("first sighting wins"): skip a variable whose
identity was already seen in either partition, otherwise append it to the
partition selected by its own trainable flag. -/
def specStep (s : CollectState) (v : Variable) : CollectState :=
  if v.vid ∈ s.trainable_variables_ids ∨ v.vid ∈ s.non_trainable_variables_ids then s
  else if v.trainable then
    { s with
      trainable_variables := s.trainable_variables ++ [v]
      trainable_variables_ids := s.trainable_variables_ids ++ [v.vid] }
  else
    { s with
      non_trainable_variables := s.non_trainable_variables ++ [v]
      non_trainable_variables_ids := s.non_trainable_variables_ids ++ [v.vid] }

/-- Identity-deduplication keeping the first occurrence, relative to a set
of already-seen ids. -/
def firstDedupBy (seen : List Nat) : List Variable → List Variable
  | [] => []
  | v :: vs =>
    if v.vid ∈ seen then firstDedupBy seen vs
    else v :: firstDedupBy (seen ++ [v.vid]) vs

/-- The id sets of a collect state classify ids according to `flag`. -/
def FlagSep (s : CollectState) (flag : Nat → Bool) : Prop :=
  (∀ i ∈ s.trainable_variables_ids, flag i = true) ∧
  (∀ i ∈ s.non_trainable_variables_ids, flag i = false)


/-! ### Basic lemmas about the trainable-loop fold -/

lemma addTrainableVar_ids_mono {s : CollectState} {i : Nat} (v : Variable)
    (h : i ∈ s.trainable_variables_ids) :
    i ∈ (addTrainableVar s v).trainable_variables_ids := by
  unfold addTrainableVar
  split
  · exact h
  · exact List.mem_append_left _ h

lemma addTrainableVar_ids_self (s : CollectState) (v : Variable) :
    v.vid ∈ (addTrainableVar s v).trainable_variables_ids := by
  unfold addTrainableVar
  split
  · assumption
  · exact List.mem_append_right _ (List.mem_singleton_self _)

lemma trainLoop_ids_mono (T : List Variable) (s : CollectState) {i : Nat}
    (h : i ∈ s.trainable_variables_ids) :
    i ∈ (T.foldl addTrainableVar s).trainable_variables_ids := by
  induction T generalizing s with
  | nil => exact h
  | cons v T ih => exact ih _ (addTrainableVar_ids_mono v h)

lemma trainLoop_ids_mem (T : List Variable) (s : CollectState) {v : Variable}
    (h : v ∈ T) :
    v.vid ∈ (T.foldl addTrainableVar s).trainable_variables_ids := by
  induction T generalizing s with
  | nil => cases h
  | cons w T ih =>
    rcases List.mem_cons.mp h with rfl | h
    · exact trainLoop_ids_mono T _ (addTrainableVar_ids_self s v)
    · exact ih _ h

/-! ### Preservation of `FlagSep` -/

lemma flagSep_specStep {s : CollectState} {flag : Nat → Bool} (hsep : FlagSep s flag)
    {v : Variable} (hv : v.trainable = flag v.vid) :
    FlagSep (specStep s v) flag := by
  unfold specStep
  split
  · exact hsep
  · split
    · refine ⟨?_, hsep.2⟩
      intro i hi
      rcases List.mem_append.mp hi with hi | hi
      · exact hsep.1 i hi
      · rw [List.mem_singleton.mp hi, ← hv]
        assumption
    · refine ⟨hsep.1, ?_⟩
      intro i hi
      rcases List.mem_append.mp hi with hi | hi
      · exact hsep.2 i hi
      · rw [List.mem_singleton.mp hi, ← hv]
        simp_all
  
lemma flagSep_specFold {L : List Variable} {s : CollectState} {flag : Nat → Bool}
    (hsep : FlagSep s flag) (hL : ∀ v ∈ L, v.trainable = flag v.vid) :
    FlagSep (L.foldl specStep s) flag := by
  induction L generalizing s with
  | nil => exact hsep
  | cons v L ih =>
    rw [List.foldl_cons]
    exact ih (flagSep_specStep hsep (hL v (List.mem_cons_self _ _)))
      (fun w hw => hL w (List.mem_cons_of_mem _ hw))

/-! ### The two inner loops agree with the specification step -/

lemma trainLoop_eq_specFold (T : List Variable) (s : CollectState) (flag : Nat → Bool)
    (hsep : FlagSep s flag) (hT : ∀ v ∈ T, v.trainable = true)
    (hfl : ∀ v ∈ T, v.trainable = flag v.vid) :
    T.foldl addTrainableVar s = T.foldl specStep s := by
  induction T generalizing s with
  | nil => rfl
  | cons v T ih =>
    have hv : v.trainable = true := hT v (List.mem_cons_self _ _)
    have hvf : flag v.vid = true := by rw [← hfl v (List.mem_cons_self _ _), hv]
    have hstep : addTrainableVar s v = specStep s v := by
      unfold addTrainableVar specStep
      by_cases hmem : v.vid ∈ s.trainable_variables_ids
      · simp [hmem]
      · have hnmem : v.vid ∉ s.non_trainable_variables_ids := by
          intro hc
          have h2 := hsep.2 _ hc
          rw [hvf] at h2
          cases h2
        simp [hmem, hnmem, hv]
    rw [List.foldl_cons, List.foldl_cons, hstep]
    exact ih _ (flagSep_specStep hsep (by rw [hv, hvf]))
      (fun w hw => hT w (List.mem_cons_of_mem _ hw))
      (fun w hw => hfl w (List.mem_cons_of_mem _ hw))

lemma specStep_tids_of_not_trainable {s : CollectState} {v : Variable}
    (hv : v.trainable = false) :
    (specStep s v).trainable_variables_ids = s.trainable_variables_ids := by
  unfold specStep
  split
  · rfl
  · simp [hv]

lemma varLoop_eq_specFold (V : List Variable) (s : CollectState) (flag : Nat → Bool)
    (hsep : FlagSep s flag)
    (hfl : ∀ v ∈ V, v.trainable = flag v.vid)
    (hT : ∀ v ∈ V, v.trainable = true → v.vid ∈ s.trainable_variables_ids) :
    V.foldl addNonTrainableVar s = V.foldl specStep s := by
  induction V generalizing s with
  | nil => rfl
  | cons v V ih =>
    rw [List.foldl_cons, List.foldl_cons]
    by_cases hv : v.trainable = true
    · have hmem := hT v (List.mem_cons_self _ _) hv
      have h1 : addNonTrainableVar s v = s := by
        unfold addNonTrainableVar
        simp [hmem]
      have h2 : specStep s v = s := by
        unfold specStep
        simp [hmem]
      rw [h1, h2]
      exact ih _ hsep (fun w hw => hfl w (List.mem_cons_of_mem _ hw))
        (fun w hw hwt => hT w (List.mem_cons_of_mem _ hw) hwt)
    · have hv' : v.trainable = false := by simpa using hv
      have hstep : addNonTrainableVar s v = specStep s v := by
        unfold addNonTrainableVar specStep
        by_cases hmem : v.vid ∈ s.trainable_variables_ids ∨ v.vid ∈ s.non_trainable_variables_ids
        · simp [hmem]
        · simp [hmem, hv']
      rw [hstep]
      apply ih
      · exact flagSep_specStep hsep (hfl v (List.mem_cons_self _ _))
      · exact fun w hw => hfl w (List.mem_cons_of_mem _ hw)
      · intro w hw hwt
        rw [specStep_tids_of_not_trainable hv']
        exact hT w (List.mem_cons_of_mem _ hw) hwt

/-! ### Concrete-function-level and function-level agreement -/

lemma processConcreteFn_eq_specFold (cf : ConcreteFn) (s : CollectState) (flag : Nat → Bool)
    (hsep : FlagSep s flag)
    (hcons : cf.trainable_variables = cf.vars.filter (fun v => v.trainable))
    (hfl : ∀ v ∈ cfVars cf, v.trainable = flag v.vid) :
    processConcreteFn s cf = (cfVars cf).foldl specStep s := by
  have hT : ∀ v ∈ cf.trainable_variables, v.trainable = true := by
    intro v hv
    rw [hcons] at hv
    exact (List.mem_filter.mp hv).2
  have hflT : ∀ v ∈ cf.trainable_variables, v.trainable = flag v.vid := fun v hv =>
    hfl v (List.mem_append_left _ hv)
  have hflV : ∀ v ∈ cf.vars, v.trainable = flag v.vid := fun v hv =>
    hfl v (List.mem_append_right _ hv)
  show cf.vars.foldl addNonTrainableVar (cf.trainable_variables.foldl addTrainableVar s)
      = (cf.trainable_variables ++ cf.vars).foldl specStep s
  rw [List.foldl_append]
  rw [← trainLoop_eq_specFold _ _ flag hsep hT hflT]
  apply varLoop_eq_specFold _ _ flag
  · rw [trainLoop_eq_specFold _ _ flag hsep hT hflT]
    exact flagSep_specFold hsep hflT
  · exact hflV
  · intro v hv hvt
    have hvT : v ∈ cf.trainable_variables := by
      rw [hcons]
      exact List.mem_filter.mpr ⟨hv, by simpa using hvt⟩
    exact trainLoop_ids_mem _ _ hvT

lemma encVars_cons (fn : Fn) (fns : List Fn) :
    encVars (fn :: fns) = fnVars fn ++ encVars fns := by
  simp [encVars]

lemma mem_fnVars {fn : Fn} {cf : ConcreteFn} {v : Variable}
    (hcf : cf ∈ fn.concreteFns) (hv : v ∈ cfVars cf) : v ∈ fnVars fn :=
  List.mem_flatten.mpr ⟨cfVars cf, List.mem_map_of_mem _ hcf, hv⟩

lemma foldl_processConcreteFn_eq (cfs : List ConcreteFn) (s : CollectState) (flag : Nat → Bool)
    (hsep : FlagSep s flag)
    (hcons : ∀ cf ∈ cfs, cf.trainable_variables = cf.vars.filter (fun v => v.trainable))
    (hfl : ∀ cf ∈ cfs, ∀ v ∈ cfVars cf, v.trainable = flag v.vid) :
    cfs.foldl processConcreteFn s = ((cfs.map cfVars).flatten).foldl specStep s := by
  induction cfs generalizing s with
  | nil => rfl
  | cons cf cfs ih =>
    rw [List.foldl_cons, List.map_cons, List.flatten_cons, List.foldl_append]
    rw [processConcreteFn_eq_specFold cf s flag hsep (hcons cf (List.mem_cons_self _ _))
      (hfl cf (List.mem_cons_self _ _))]
    exact ih _ (flagSep_specFold hsep (hfl cf (List.mem_cons_self _ _)))
      (fun c hc => hcons c (List.mem_cons_of_mem _ hc))
      (fun c hc => hfl c (List.mem_cons_of_mem _ hc))

lemma collect_fold_eq (fns : List Fn) (s : CollectState) (flag : Nat → Bool)
    (hsep : FlagSep s flag)
    (hcons : ∀ fn ∈ fns, ∀ cf ∈ fn.concreteFns,
        cf.trainable_variables = cf.vars.filter (fun v => v.trainable))
    (hfl : ∀ v ∈ encVars fns, v.trainable = flag v.vid) :
    fns.foldl (fun s fn => fn.concreteFns.foldl processConcreteFn s) s
      = (encVars fns).foldl specStep s := by
  induction fns generalizing s with
  | nil => rfl
  | cons fn fns ih =>
    have hflfn : ∀ cf ∈ fn.concreteFns, ∀ v ∈ cfVars cf, v.trainable = flag v.vid := by
      intro cf hcf v hv
      exact hfl v (by rw [encVars_cons]; exact List.mem_append_left _ (mem_fnVars hcf hv))
    have hflfnV : ∀ v ∈ fnVars fn, v.trainable = flag v.vid := by
      intro v hv
      exact hfl v (by rw [encVars_cons]; exact List.mem_append_left _ hv)
    rw [List.foldl_cons, encVars_cons, List.foldl_append]
    rw [foldl_processConcreteFn_eq fn.concreteFns s flag hsep
      (hcons fn (List.mem_cons_self _ _)) hflfn]
    exact ih _ (flagSep_specFold hsep hflfnV)
      (fun f hf => hcons f (List.mem_cons_of_mem _ hf))
      (fun v hv => hfl v (by rw [encVars_cons]; exact List.mem_append_right _ hv))

/-! ### Characterization of the specification fold -/

lemma specFold_characterization (L : List Variable) (s : CollectState) (flag : Nat → Bool)
    (hsep : FlagSep s flag) (hfl : ∀ v ∈ L, v.trainable = flag v.vid) :
    (L.foldl specStep s).trainable_variables
        = s.trainable_variables
          ++ firstDedupBy s.trainable_variables_ids (L.filter (fun v => v.trainable)) ∧
    (L.foldl specStep s).non_trainable_variables
        = s.non_trainable_variables
          ++ firstDedupBy s.non_trainable_variables_ids (L.filter (fun v => !v.trainable)) ∧
    (L.foldl specStep s).trainable_variables_ids
        = s.trainable_variables_ids
          ++ (firstDedupBy s.trainable_variables_ids
                (L.filter (fun v => v.trainable))).map (fun v => v.vid) ∧
    (L.foldl specStep s).non_trainable_variables_ids
        = s.non_trainable_variables_ids
          ++ (firstDedupBy s.non_trainable_variables_ids
                (L.filter (fun v => !v.trainable))).map (fun v => v.vid) := by
  induction L generalizing s with
  | nil => simp [firstDedupBy]
  | cons v L ih =>
    have hv := hfl v (List.mem_cons_self _ _)
    have hrest : ∀ w ∈ L, w.trainable = flag w.vid :=
      fun w hw => hfl w (List.mem_cons_of_mem _ hw)
    rw [List.foldl_cons]
    by_cases ht : v.trainable = true
    · have hfilT : (v :: L).filter (fun v => v.trainable)
          = v :: L.filter (fun v => v.trainable) := by
        simp [List.filter_cons, ht]
      have hfilN : (v :: L).filter (fun v => !v.trainable)
          = L.filter (fun v => !v.trainable) := by
        simp [List.filter_cons, ht]
      rw [hfilT, hfilN]
      by_cases hmem : v.vid ∈ s.trainable_variables_ids
      · have hstep : specStep s v = s := by
          unfold specStep
          simp [hmem]
        rw [hstep, firstDedupBy, if_pos hmem]
        exact ih s hsep hrest
      · have hnmem : v.vid ∉ s.non_trainable_variables_ids := by
          intro hc
          have h2 := hsep.2 _ hc
          rw [← hv, ht] at h2
          cases h2
        have hstep : specStep s v
            = { s with
                trainable_variables := s.trainable_variables ++ [v]
                trainable_variables_ids := s.trainable_variables_ids ++ [v.vid] } := by
          unfold specStep
          simp [hmem, hnmem, ht]
        rw [hstep, firstDedupBy, if_neg hmem]
        have hsep' : FlagSep
            { s with
              trainable_variables := s.trainable_variables ++ [v]
              trainable_variables_ids := s.trainable_variables_ids ++ [v.vid] } flag := by
          refine ⟨?_, hsep.2⟩
          intro i hi
          rcases List.mem_append.mp hi with hi | hi
          · exact hsep.1 i hi
          · rw [List.mem_singleton.mp hi, ← hv]
            exact ht
        obtain ⟨h1, h2, h3, h4⟩ := ih _ hsep' hrest
        refine ⟨?_, ?_, ?_, ?_⟩
        · rw [h1]
          simp [List.append_assoc]
        · rw [h2]
        · rw [h3]
          simp [List.append_assoc]
        · rw [h4]
    · have ht' : v.trainable = false := by simpa using ht
      have hfilT : (v :: L).filter (fun v => v.trainable)
          = L.filter (fun v => v.trainable) := by
        simp [List.filter_cons, ht']
      have hfilN : (v :: L).filter (fun v => !v.trainable)
          = v :: L.filter (fun v => !v.trainable) := by
        simp [List.filter_cons, ht']
      rw [hfilT, hfilN]
      by_cases hmem : v.vid ∈ s.non_trainable_variables_ids
      · have hstep : specStep s v = s := by
          unfold specStep
          simp [hmem]
        rw [hstep, firstDedupBy, if_pos hmem]
        exact ih s hsep hrest
      · have hnmem : v.vid ∉ s.trainable_variables_ids := by
          intro hc
          have h2 := hsep.1 _ hc
          rw [← hv, ht'] at h2
          cases h2
        have hstep : specStep s v
            = { s with
                non_trainable_variables := s.non_trainable_variables ++ [v]
                non_trainable_variables_ids := s.non_trainable_variables_ids ++ [v.vid] } := by
          unfold specStep
          simp [hmem, hnmem, ht']
        rw [hstep, firstDedupBy, if_neg hmem]
        have hsep' : FlagSep
            { s with
              non_trainable_variables := s.non_trainable_variables ++ [v]
              non_trainable_variables_ids := s.non_trainable_variables_ids ++ [v.vid] } flag := by
          refine ⟨hsep.1, ?_⟩
          intro i hi
          rcases List.mem_append.mp hi with hi | hi
          · exact hsep.2 i hi
          · rw [List.mem_singleton.mp hi, ← hv]
            exact ht'
        obtain ⟨h1, h2, h3, h4⟩ := ih _ hsep' hrest
        refine ⟨?_, ?_, ?_, ?_⟩
        · rw [h1]
        · rw [h2]
          simp [List.append_assoc]
        · rw [h3]
        · rw [h4]
          simp [List.append_assoc]

/-! ### Properties of `firstDedupBy` -/

lemma mem_of_mem_firstDedupBy {seen : List Nat} {L : List Variable} {v : Variable}
    (h : v ∈ firstDedupBy seen L) : v ∈ L := by
  induction L generalizing seen with
  | nil => simp [firstDedupBy] at h
  | cons w L ih =>
    rw [firstDedupBy] at h
    split at h
    · exact List.mem_cons_of_mem _ (ih h)
    · rcases List.mem_cons.mp h with rfl | h
      · exact List.mem_cons_self _ _
      · exact List.mem_cons_of_mem _ (ih h)

lemma firstDedupBy_ids_not_seen {seen : List Nat} {L : List Variable} {i : Nat}
    (h : i ∈ (firstDedupBy seen L).map (fun v => v.vid)) : i ∉ seen := by
  induction L generalizing seen with
  | nil => simp [firstDedupBy] at h
  | cons w L ih =>
    rw [firstDedupBy] at h
    split at h
    · exact ih h
    · simp only [List.map_cons, List.mem_cons] at h
      rcases h with rfl | h
      · assumption
      · intro hc
        exact ih h (List.mem_append_left _ hc)

lemma firstDedupBy_ids_nodup (seen : List Nat) (L : List Variable) :
    ((firstDedupBy seen L).map (fun v => v.vid)).Nodup := by
  induction L generalizing seen with
  | nil => simp [firstDedupBy]
  | cons w L ih =>
    rw [firstDedupBy]
    split
    · exact ih _
    · simp only [List.map_cons, List.nodup_cons]
      refine ⟨?_, ih _⟩
      intro hc
      exact firstDedupBy_ids_not_seen hc (List.mem_append_right _ (List.mem_singleton_self _))

lemma firstDedupBy_ids_complete {seen : List Nat} {L : List Variable} {v : Variable}
    (hv : v ∈ L) (hns : v.vid ∉ seen) :
    v.vid ∈ (firstDedupBy seen L).map (fun v => v.vid) := by
  induction L generalizing seen with
  | nil => cases hv
  | cons w L ih =>
    by_cases hw : w.vid ∈ seen
    · rw [firstDedupBy, if_pos hw]
      rcases List.mem_cons.mp hv with rfl | hv
      · exact absurd hw hns
      · exact ih hv hns
    · rw [firstDedupBy, if_neg hw]
      simp only [List.map_cons, List.mem_cons]
      rcases List.mem_cons.mp hv with rfl | hv
      · exact Or.inl rfl
      · by_cases hvw : v.vid = w.vid
        · exact Or.inl hvw
        · refine Or.inr (ih hv ?_)
          intro hc
          rcases List.mem_append.mp hc with hc | hc
          · exact hns hc
          · exact hvw (List.mem_singleton.mp hc)

/-! ### Main specification of `_list_variables_used_by_fns` -/

lemma collect_spec (fns : List Fn) (flag : Nat → Bool)
    (hcons : ∀ fn ∈ fns, ∀ cf ∈ fn.concreteFns,
        cf.trainable_variables = cf.vars.filter (fun v => v.trainable))
    (hfl : ∀ v ∈ encVars fns, v.trainable = flag v.vid) :
    (list_variables_used_by_fns fns).1
        = firstDedupBy [] ((encVars fns).filter (fun v => v.trainable)) ∧
    (list_variables_used_by_fns fns).2
        = firstDedupBy [] ((encVars fns).filter (fun v => !v.trainable)) := by
  have hsep : FlagSep ⟨[], [], [], []⟩ flag := ⟨by simp, by simp⟩
  have heq := collect_fold_eq fns ⟨[], [], [], []⟩ flag hsep hcons hfl
  obtain ⟨h1, h2, _, _⟩ :=
    specFold_characterization (encVars fns) ⟨[], [], [], []⟩ flag hsep hfl
  constructor
  · show (fns.foldl (fun (s : CollectState) (fn : Fn) =>
        fn.concreteFns.foldl processConcreteFn s)
        ⟨[], [], [], []⟩).trainable_variables
      = firstDedupBy [] ((encVars fns).filter (fun v => v.trainable))
    rw [heq, h1]
    rfl
  · show (fns.foldl (fun (s : CollectState) (fn : Fn) =>
        fn.concreteFns.foldl processConcreteFn s)
        ⟨[], [], [], []⟩).non_trainable_variables
      = firstDedupBy [] ((encVars fns).filter (fun v => !v.trainable))
    rw [heq, h2]
    rfl

/-- Conclusions shared by C1 and C9: two lists equal to the two
first-dedup projections of the encounter stream form an exact,
flag-partitioned, identity-deduplicated cover of the encountered
variables. -/
lemma collect_closure_conclusion (fns : List Fn) (flag : Nat → Bool)
    (hfl : ∀ v ∈ encVars fns, v.trainable = flag v.vid)
    (wt wn : List Variable)
    (hw1 : wt = firstDedupBy [] ((encVars fns).filter (fun v => v.trainable)))
    (hw2 : wn = firstDedupBy [] ((encVars fns).filter (fun v => !v.trainable))) :
    wt = firstDedupBy [] ((encVars fns).filter (fun v => v.trainable)) ∧
    wn = firstDedupBy [] ((encVars fns).filter (fun v => !v.trainable)) ∧
    ((wt ++ wn).map (fun v => v.vid)).Nodup ∧
    (∀ v ∈ wt, v.trainable = true) ∧
    (∀ v ∈ wn, v.trainable = false) ∧
    (∀ v ∈ encVars fns, v.vid ∈ (wt ++ wn).map (fun v => v.vid)) := by
  have hmem1 : ∀ v ∈ wt, v ∈ encVars fns ∧ v.trainable = true := by
    intro v hv
    rw [hw1] at hv
    have hvf := mem_of_mem_firstDedupBy hv
    exact ⟨(List.mem_filter.mp hvf).1, (List.mem_filter.mp hvf).2⟩
  have hmem2 : ∀ v ∈ wn, v ∈ encVars fns ∧ v.trainable = false := by
    intro v hv
    rw [hw2] at hv
    have hvf := mem_of_mem_firstDedupBy hv
    refine ⟨(List.mem_filter.mp hvf).1, ?_⟩
    have := (List.mem_filter.mp hvf).2
    simpa using this
  refine ⟨hw1, hw2, ?_, fun v hv => (hmem1 v hv).2, fun v hv => (hmem2 v hv).2, ?_⟩
  · rw [List.map_append]
    apply List.Nodup.append
    · rw [hw1]
      exact firstDedupBy_ids_nodup _ _
    · rw [hw2]
      exact firstDedupBy_ids_nodup _ _
    · intro i hi1 hi2
      obtain ⟨v, hv, rfl⟩ := List.mem_map.mp hi1
      obtain ⟨w, hw, hvw⟩ := List.mem_map.mp hi2
      have hvt := hmem1 v hv
      have hwt := hmem2 w hw
      have hfv : flag v.vid = true := by rw [← hfl v hvt.1, hvt.2]
      have hfw : flag w.vid = false := by rw [← hfl w hwt.1, hwt.2]
      rw [hvw, hfv] at hfw
      cases hfw
  · intro v hv
    rw [List.map_append, List.mem_append]
    by_cases ht : v.trainable = true
    · refine Or.inl ?_
      rw [hw1]
      exact firstDedupBy_ids_complete (List.mem_filter.mpr ⟨hv, ht⟩) (by simp)
    · refine Or.inr ?_
      rw [hw2]
      exact firstDedupBy_ids_complete
        (List.mem_filter.mpr ⟨hv, by simpa using ht⟩) (by simp)

/-! ### Claim C1 -/

/-- C1 (amended).  Provided every trace reports as `trainable_variables`
exactly the trainable-flagged members of its `variables` list, and the
trainable flag is a function of the parameter's identity across all
traces, `_list_variables_used_by_fns` returns two ordered sequences in
which each distinct parameter identity appears exactly once across both
sequences combined, placed in the partition matching its flag, in
first-encounter order over the functions in registration order (each
trace's trainable list being scanned before its full variable list).
Without that consistency the result can duplicate an identity across the
two partitions (see the counterexample). -/
theorem collect_first_sighting_partition (fns : List Fn) (flag : Nat → Bool)
    (hcons : ∀ fn ∈ fns, ∀ cf ∈ fn.concreteFns,
        cf.trainable_variables = cf.vars.filter (fun v => v.trainable))
    (hfl : ∀ v ∈ encVars fns, v.trainable = flag v.vid) :
    (list_variables_used_by_fns fns).1
        = firstDedupBy [] ((encVars fns).filter (fun v => v.trainable)) ∧
    (list_variables_used_by_fns fns).2
        = firstDedupBy [] ((encVars fns).filter (fun v => !v.trainable)) ∧
    (((list_variables_used_by_fns fns).1
        ++ (list_variables_used_by_fns fns).2).map (fun v => v.vid)).Nodup ∧
    (∀ v ∈ (list_variables_used_by_fns fns).1, v.trainable = true) ∧
    (∀ v ∈ (list_variables_used_by_fns fns).2, v.trainable = false) ∧
    (∀ v ∈ encVars fns,
      v.vid ∈ ((list_variables_used_by_fns fns).1
        ++ (list_variables_used_by_fns fns).2).map (fun v => v.vid)) := by
  obtain ⟨h1, h2⟩ := collect_spec fns flag hcons hfl
  exact collect_closure_conclusion fns flag hfl _ _ h1 h2

/-- Traces refuting C1 as stated: trace 1 references identity 0 as
non-trainable, trace 2 classifies the same identity trainable. -/
def c1CexFns : List Fn :=
  [Fn.concrete ⟨[], [⟨0, false⟩]⟩, Fn.concrete ⟨[⟨0, true⟩], [⟨0, true⟩]⟩]

/-- C1 (counterexample).  On `c1CexFns` the implementation returns
identity 0 in *both* partitions, refuting "each distinct parameter
identity appears exactly once across both sequences combined" and
"first sighting wins": identity 0 is first sighted non-trainable, yet a
later trace listing it trainable adds it to the trainable partition
again. -/
theorem collect_duplicates_on_inconsistent_traces :
    (list_variables_used_by_fns c1CexFns).1.map (fun v => v.vid) = [0] ∧
    (list_variables_used_by_fns c1CexFns).2.map (fun v => v.vid) = [0] ∧
    ¬ (((list_variables_used_by_fns c1CexFns).1
        ++ (list_variables_used_by_fns c1CexFns).2).map (fun v => v.vid)).Nodup := by
  refine ⟨rfl, rfl, ?_⟩
  decide

/-- Concrete input for the witness of `collect_first_sighting_partition`:
two functions sharing trainable identity 1, with disjoint non-trainable
identities 2 and 3. -/
def c1WitFns : List Fn :=
  [Fn.generic [⟨[⟨1, true⟩], [⟨1, true⟩, ⟨2, false⟩]⟩],
   Fn.concrete ⟨[⟨1, true⟩], [⟨1, true⟩, ⟨3, false⟩]⟩]

/-- Trainable flag by identity for `c1WitFns`. -/
def c1WitFlag : Nat → Bool := fun i => decide (i = 1)

/-- Witness for `collect_first_sighting_partition` at a concrete input
satisfying both hypotheses. -/
theorem collect_first_sighting_partition_witness :
    (∀ fn ∈ c1WitFns, ∀ cf ∈ fn.concreteFns,
        cf.trainable_variables = cf.vars.filter (fun v => v.trainable)) ∧
    (∀ v ∈ encVars c1WitFns, v.trainable = c1WitFlag v.vid) ∧
    (list_variables_used_by_fns c1WitFns).1.map (fun v => v.vid) = [1] ∧
    (list_variables_used_by_fns c1WitFns).2.map (fun v => v.vid) = [2, 3] := by
  refine ⟨by decide, by decide, ?_, ?_⟩
  · have h :=
      (collect_first_sighting_partition c1WitFns c1WitFlag (by decide) (by decide)).1
    rw [h]
    decide
  · have h :=
      (collect_first_sighting_partition c1WitFns c1WitFlag (by decide) (by decide)).2.1
    rw [h]
    decide

/-! ### The `ExportArchive` data model -/

/-- The two numeric backends the export API supports; `__init__` raises
`NotImplementedError` for any other backend, so no other value arises. -/
inductive Backend
  | tensorflow
  | jax
deriving DecidableEq

/-- The error taxonomy of the module.  Each constructor stands for one of
the `ValueError`s raised by `export_lib.py`; `endpointNotFound` carries
the endpoint name and the available signature keys enumerated in the
message. -/
inductive ExportError
  | invalidResourceType
  | notBuilt
  | duplicateEndpointName (name : String)
  | unspecializedFunction
  | missingSignature
  | noEndpoints
  | endpointNotFound (endpoint : String) (available : List String)
deriving DecidableEq

/-- A resource passed to `track`: its runtime capabilities (which
`isinstance` checks it satisfies), its built flag and its parameter
lists. -/
structure Resource where
  isTrackable : Bool
  isJaxLayer : Bool
  isLayer : Bool
  built : Bool
  vars : List Variable
  trainable_variables : List Variable
  non_trainable_variables : List Variable
deriving DecidableEq

/-- Abstract shape/dtype descriptor standing for a `tf.TensorSpec`. -/
structure TensorSpec where
  sid : Nat
deriving DecidableEq

/-- The callable stored as an endpoint attribute on the trackable:
either `tf.function(fn, input_signature=...)` (TF backend with explicit
signature), the jax2tf-converted stateful wrapper re-wrapped in a
`tf.function` (JAX backend with explicit signature; the conversion
itself is an external collaborator, modelled opaquely), or a pre-traced
`tf.function` registered as-is. -/
inductive EndpointFn
  | decorated (fn : Fn) (input_signature : List TensorSpec)
  | jaxStateful (input_signature : List TensorSpec)
  | direct (fn : Fn)
deriving DecidableEq

/-- The state of an `ExportArchive`.  Endpoint attributes set on
`self._tf_trackable` via `setattr` are modelled as the `endpoint_fns`
table; `vars`, `trainable_variables` and `non_trainable_variables` model
the lists stored on `self._tf_trackable`; the `backend_*` lists model the
`self._backend_*` lists kept for the JAX backend; `tracked` models
`self._tracked`; `fresh` is the identity allocator used when the JAX
branch creates new `tf.Variable` wrapper objects. -/
structure Archive where
  backend : Backend
  endpoint_names : List String
  endpoint_signatures : List (String × List TensorSpec)
  endpoint_fns : List (String × EndpointFn)
  vars : List Variable
  trainable_variables : List Variable
  non_trainable_variables : List Variable
  backend_variables : List Variable
  backend_trainable_variables : List Variable
  backend_non_trainable_variables : List Variable
  tracked : List Resource
  fresh : Nat
deriving DecidableEq

/-- Constructor `ExportArchive.__init__` for a supported backend: everything empty. -/
def ExportArchive_init (b : Backend) : Archive :=
  { backend := b
    endpoint_names := []
    endpoint_signatures := []
    endpoint_fns := []
    vars := []
    trainable_variables := []
    non_trainable_variables := []
    backend_variables := []
    backend_trainable_variables := []
    backend_non_trainable_variables := []
    tracked := []
    fresh := 0 }

/-- Python-dict insertion: replace the value in place if the key exists,
otherwise append the new binding. -/
def dictInsert {α : Type} : List (String × α) → String → α → List (String × α)
  | [], k, v => [(k, v)]
  | (k', v') :: d, k, v =>
    if k' = k then (k, v) :: d else (k', v') :: dictInsert d k v

/-- Method `ExportArchive.track(resource)`.  A raised `ValueError` is modelled by
returning the state at the raise point (nothing has been mutated there)
together with the error. -/
def track (a : Archive) (r : Resource) : Archive × Option ExportError :=
  if a.backend = Backend.tensorflow ∧ r.isTrackable = false then
    (a, some ExportError.invalidResourceType)
  else if a.backend = Backend.jax ∧ r.isJaxLayer = false then
    (a, some ExportError.invalidResourceType)
  else if r.isLayer = true ∧ r.built = false then
    (a, some ExportError.notBuilt)
  else
    let a1 := { a with tracked := a.tracked ++ [r] }
    if r.isLayer = true then
      match a1.backend with
      | Backend.jax =>
        let tvs := r.trainable_variables
        let ntvs := r.non_trainable_variables
        let btv := a1.backend_trainable_variables ++ tvs
        let bntv := a1.backend_non_trainable_variables ++ ntvs
        -- `tf.Variable(v)` creates a fresh host-runtime variable object for
        -- each backend variable (fresh identity; `tf.Variable`'s trainable
        -- flag defaults to `True` since none is passed).
        let wrapT := (List.range tvs.length).map
          (fun i => Variable.mk (a1.fresh + i) true)
        let wrapN := (List.range ntvs.length).map
          (fun i => Variable.mk (a1.fresh + tvs.length + i) true)
        let newT := a1.trainable_variables ++ wrapT
        let newN := a1.non_trainable_variables ++ wrapN
        ({ a1 with
            backend_trainable_variables := btv
            backend_non_trainable_variables := bntv
            backend_variables := btv ++ bntv
            trainable_variables := newT
            non_trainable_variables := newN
            vars := newT ++ newN
            fresh := a1.fresh + tvs.length + ntvs.length }, none)
      | Backend.tensorflow =>
        ({ a1 with
            vars := a1.vars ++ r.vars
            trainable_variables := a1.trainable_variables ++ r.trainable_variables
            non_trainable_variables :=
              a1.non_trainable_variables ++ r.non_trainable_variables }, none)
    else (a1, none)

/-- Python truthiness of the `input_signature` argument: `None` and the
empty list are both falsy (`if input_signature:`). -/
def sigTruthy : Option (List TensorSpec) → Bool
  | none => false
  | some l => !l.isEmpty

/-- Method `ExportArchive.add_endpoint(name, fn, input_signature)`.  The JAX
stateless-wrapper/jax2tf pipeline is an external conversion; what the
archive records of it is the decorated callable and the signature. -/
def add_endpoint (a : Archive) (name : String) (fn : Fn)
    (input_signature : Option (List TensorSpec)) : Archive × Option ExportError :=
  if name ∈ a.endpoint_names then
    (a, some (ExportError.duplicateEndpointName name))
  else
    if sigTruthy input_signature = true then
      let sig := input_signature.getD []
      let decorated_fn : EndpointFn :=
        match a.backend with
        | Backend.tensorflow => EndpointFn.decorated fn sig
        | Backend.jax => EndpointFn.jaxStateful sig
      let a1 := { a with
        endpoint_signatures := dictInsert a.endpoint_signatures name sig }
      ({ a1 with
          endpoint_fns := dictInsert a1.endpoint_fns name decorated_fn
          endpoint_names := a1.endpoint_names ++ [name] }, none)
    else
      match fn with
      | Fn.generic cfs =>
        if cfs.isEmpty then (a, some ExportError.unspecializedFunction)
        else
          ({ a with
              endpoint_fns := dictInsert a.endpoint_fns name (EndpointFn.direct fn)
              endpoint_names := a.endpoint_names ++ [name] }, none)
      | Fn.traceable _ => (a, some ExportError.missingSignature)
      | Fn.concrete _ => (a, some ExportError.missingSignature)

/-- A value bound in the emitted signature map: either the whole
decorated `tf.function` (endpoint registered with an explicit signature)
or the first concrete trace found through the trace registry of a
pre-traced callable. -/
inductive SigValue
  | whole (f : EndpointFn)
  | trace (cf : ConcreteFn)
deriving DecidableEq

/-- Method `ExportArchive._get_concrete_fn(endpoint)`.  `none` models the Python
crash paths (missing attribute / empty trace registry), which are
unreachable on archives built through `add_endpoint`. -/
def get_concrete_fn (a : Archive) (endpoint : String) : Option SigValue :=
  if (a.endpoint_signatures.lookup endpoint).isSome then
    (a.endpoint_fns.lookup endpoint).map SigValue.whole
  else
    match a.endpoint_fns.lookup endpoint with
    | some (EndpointFn.direct fn) => (fn.concreteFns.head?).map SigValue.trace
    | _ => none

/-- Method `ExportArchive.write_out(filepath)`, restricted to what it computes
in memory: the no-endpoints check and the construction of the signature
map handed to `tf.saved_model.save`.  The resource filtering step touches
only the derived `_all_variables` / `_misc_assets` attributes and the
actual container write and summary printing are external effects; none
of them alters the signature map or the endpoint registry. -/
def write_out (a : Archive) :
    Except ExportError (List (String × Option SigValue)) :=
  if a.endpoint_names.isEmpty then Except.error ExportError.noEndpoints
  else
    let signatures := a.endpoint_names.foldl
      (fun m name => dictInsert m name (get_concrete_fn a name)) []
    let signatures :=
      if "serving_default" ∈ a.endpoint_names then signatures
      else dictInsert signatures "serving_default"
        (get_concrete_fn a (a.endpoint_names.headD ""))
    Except.ok signatures

/-! ### Claim C2: `track` is not idempotent -/

/-- Successful `track` of a built layer on the TensorFlow backend:
the resource's lists are appended to the archive's lists. -/
lemma track_tf_layer (a : Archive) (r : Resource)
    (hb : a.backend = Backend.tensorflow) (htr : r.isTrackable = true)
    (hl : r.isLayer = true) (hbuilt : r.built = true) :
    track a r =
      ({ a with
          tracked := a.tracked ++ [r]
          vars := a.vars ++ r.vars
          trainable_variables := a.trainable_variables ++ r.trainable_variables
          non_trainable_variables :=
            a.non_trainable_variables ++ r.non_trainable_variables },
        none) := by
  unfold track
  rw [if_neg (by simp [htr]), if_neg (by simp [hb]), if_neg (by simp [hbuilt])]
  simp only [hl, if_pos]
  simp [hb]

/-- A built, trackable layer root with one trainable parameter. -/
def c2Root : Resource :=
  { isTrackable := true
    isJaxLayer := false
    isLayer := true
    built := true
    vars := [⟨0, true⟩]
    trainable_variables := [⟨0, true⟩]
    non_trainable_variables := [] }

/-- C2 (counterexample).  Tracking the same built root twice duplicates
its parameter identity: right after the second call, identity 0 appears
twice in both `variables` and `trainable_variables`. -/
theorem track_twice_duplicates_identity :
    ((track (track (ExportArchive_init Backend.tensorflow) c2Root).1 c2Root).1.trainable_variables).map
        (fun v => v.vid) = [0, 0] ∧
    ((track (track (ExportArchive_init Backend.tensorflow) c2Root).1 c2Root).1.vars).map
        (fun v => v.vid) = [0, 0] ∧
    ¬ (((track (track (ExportArchive_init Backend.tensorflow) c2Root).1 c2Root).1.trainable_variables).map
        (fun v => v.vid)).Nodup := by
  refine ⟨by decide, by decide, by decide⟩

/-- C2 (amended).  `track` is not idempotent with respect to variable
membership: on the TensorFlow backend, a second `track` of the same
built trackable layer appends its parameter lists again, so each of the
root's parameter identities appears once per call (at least twice in
total) in the lists observable right after the second call.
Deduplication happens only at write time, when the variable set is
recomputed from the endpoint traces by `_list_variables_used_by_fns`. -/
theorem track_twice_appends_again (a : Archive) (r : Resource)
    (hb : a.backend = Backend.tensorflow)
    (htr : r.isTrackable = true) (hl : r.isLayer = true) (hbuilt : r.built = true) :
    (track a r).2 = none ∧
    (track (track a r).1 r).2 = none ∧
    (track (track a r).1 r).1.vars = a.vars ++ r.vars ++ r.vars ∧
    (track (track a r).1 r).1.trainable_variables
        = a.trainable_variables ++ r.trainable_variables ++ r.trainable_variables ∧
    (track (track a r).1 r).1.non_trainable_variables
        = a.non_trainable_variables ++ r.non_trainable_variables
          ++ r.non_trainable_variables ∧
    (∀ v ∈ r.vars,
      2 ≤ (((track (track a r).1 r).1.vars).map (fun w => w.vid)).count v.vid) := by
  have h1 := track_tf_layer a r hb htr hl hbuilt
  have hb1 : (track a r).1.backend = Backend.tensorflow := by rw [h1]; exact hb
  have h2 := track_tf_layer (track a r).1 r hb1 htr hl hbuilt
  have hvars : (track (track a r).1 r).1.vars = a.vars ++ r.vars ++ r.vars := by
    rw [h2, h1]
  refine ⟨by rw [h1], by rw [h2], hvars, by rw [h2, h1], by rw [h2, h1], ?_⟩
  intro v hv
  have hmem : v.vid ∈ r.vars.map (fun w => w.vid) := List.mem_map_of_mem _ hv
  have hpos : 0 < (r.vars.map (fun w => w.vid)).count v.vid :=
    List.count_pos_iff.mpr hmem
  rw [hvars, List.map_append, List.map_append, List.count_append, List.count_append]
  omega

/-- Witness for `track_twice_appends_again` at a concrete archive/root. -/
theorem track_twice_appends_again_witness :
    ((ExportArchive_init Backend.tensorflow).backend = Backend.tensorflow ∧
      c2Root.isTrackable = true ∧ c2Root.isLayer = true ∧ c2Root.built = true) ∧
    (track (track (ExportArchive_init Backend.tensorflow) c2Root).1 c2Root).1.trainable_variables
      = [] ++ [⟨0, true⟩] ++ [⟨0, true⟩] := by
  refine ⟨⟨rfl, rfl, rfl, rfl⟩, ?_⟩
  exact (track_twice_appends_again (ExportArchive_init Backend.tensorflow) c2Root
    rfl rfl rfl rfl).2.2.2.1

/-! ### Claim C5: `track` capability and built checks -/

/-- The "trackable" capability the serialization runtime in use demands
of a resource: `tf.__internal__.tracking.Trackable` on the TensorFlow
backend, `backend.jax.layer.JaxLayer` on the JAX backend. -/
def hasTrackableCapability (b : Backend) (r : Resource) : Bool :=
  match b with
  | Backend.tensorflow => r.isTrackable
  | Backend.jax => r.isJaxLayer

/-- C5.  `track` rejects with `invalid-resource-type` every resource
lacking the backend's trackable capability, rejects with `not-built`
every layer whose `built` flag is false, and never rejects a built
trackable layer.  The hypothesis `hlayer_cap` reflects the source's
class hierarchy: a Keras `Layer` is a subclass of the backend's
trackable base class, so every layer-like resource satisfies the
capability. -/
theorem track_rejects_invalid_and_unbuilt (a : Archive) (r : Resource)
    (hlayer_cap : r.isLayer = true → hasTrackableCapability a.backend r = true) :
    (hasTrackableCapability a.backend r = false →
        track a r = (a, some ExportError.invalidResourceType)) ∧
    (r.isLayer = true → r.built = false →
        track a r = (a, some ExportError.notBuilt)) ∧
    (hasTrackableCapability a.backend r = true → r.isLayer = true → r.built = true →
        (track a r).2 = none) := by
  refine ⟨?_, ?_, ?_⟩
  · intro hcap
    cases hb : a.backend with
    | tensorflow =>
      rw [hb] at hcap
      unfold track
      rw [if_pos ⟨hb, hcap⟩]
    | jax =>
      rw [hb] at hcap
      unfold track
      rw [if_neg (by simp [hb]), if_pos ⟨hb, hcap⟩]
  · intro hl hnb
    have hcap := hlayer_cap hl
    unfold track
    cases hb : a.backend with
    | tensorflow =>
      rw [hb] at hcap
      rw [if_neg (by simp [show r.isTrackable = true from hcap]),
        if_neg (by simp [hb]), if_pos ⟨hl, hnb⟩]
    | jax =>
      rw [hb] at hcap
      rw [if_neg (by simp [hb]),
        if_neg (by simp [show r.isJaxLayer = true from hcap]), if_pos ⟨hl, hnb⟩]
  · intro hcap hl hbuilt
    unfold track
    cases hb : a.backend with
    | tensorflow =>
      rw [hb] at hcap
      rw [if_neg (by simp [show r.isTrackable = true from hcap]),
        if_neg (by simp [hb]), if_neg (by simp [hbuilt])]
      simp [hl, hb]
    | jax =>
      rw [hb] at hcap
      rw [if_neg (by simp [hb]),
        if_neg (by simp [show r.isJaxLayer = true from hcap]),
        if_neg (by simp [hbuilt])]
      simp [hl, hb]

/-- A non-trackable, non-layer resource. -/
def c5Foreign : Resource :=
  { isTrackable := false
    isJaxLayer := false
    isLayer := false
    built := false
    vars := []
    trainable_variables := []
    non_trainable_variables := [] }

/-- An unbuilt trackable layer. -/
def c5Unbuilt : Resource :=
  { isTrackable := true
    isJaxLayer := true
    isLayer := true
    built := false
    vars := []
    trainable_variables := []
    non_trainable_variables := [] }

/-- Witness for `track_rejects_invalid_and_unbuilt`: all three branches
exercised at concrete resources on the TensorFlow backend. -/
theorem track_rejects_invalid_and_unbuilt_witness :
    track (ExportArchive_init Backend.tensorflow) c5Foreign
      = (ExportArchive_init Backend.tensorflow, some ExportError.invalidResourceType) ∧
    track (ExportArchive_init Backend.tensorflow) c5Unbuilt
      = (ExportArchive_init Backend.tensorflow, some ExportError.notBuilt) ∧
    (track (ExportArchive_init Backend.tensorflow) c2Root).2 = none := by
  refine ⟨?_, ?_, ?_⟩
  · exact (track_rejects_invalid_and_unbuilt (ExportArchive_init Backend.tensorflow)
      c5Foreign (by intro h; cases h)).1 rfl
  · exact (track_rejects_invalid_and_unbuilt (ExportArchive_init Backend.tensorflow)
      c5Unbuilt (by intro h; rfl)).2.1 rfl rfl
  · exact (track_rejects_invalid_and_unbuilt (ExportArchive_init Backend.tensorflow)
      c2Root (by intro h; rfl)).2.2 rfl rfl rfl

/-! ### Dictionary lemmas -/

lemma dictInsert_lookup_self {α : Type} (d : List (String × α)) (k : String) (v : α) :
    (dictInsert d k v).lookup k = some v := by
  induction d with
  | nil => simp [dictInsert, List.lookup]
  | cons p d ih =>
    obtain ⟨k1, v1⟩ := p
    rw [dictInsert]
    by_cases h : k1 = k
    · rw [if_pos h]
      simp [List.lookup]
    · rw [if_neg h]
      have hbeq : (k == k1) = false := beq_eq_false_iff_ne.mpr (Ne.symm h)
      simp [List.lookup, hbeq]
      exact ih

lemma dictInsert_lookup_ne {α : Type} (d : List (String × α)) (k k' : String) (v : α)
    (h : k' ≠ k) : (dictInsert d k v).lookup k' = d.lookup k' := by
  induction d with
  | nil => simp [dictInsert, List.lookup, beq_eq_false_iff_ne.mpr h]
  | cons p d ih =>
    obtain ⟨k1, v1⟩ := p
    rw [dictInsert]
    by_cases h1 : k1 = k
    · rw [if_pos h1]
      subst h1
      simp [List.lookup, beq_eq_false_iff_ne.mpr h]
    · rw [if_neg h1]
      by_cases h2 : k' = k1
      · subst h2
        simp [List.lookup]
      · simp [List.lookup, beq_eq_false_iff_ne.mpr h2]
        exact ih

lemma write_fold_lookup (names : List String) (a : Archive)
    (m : List (String × Option SigValue)) (k : String) :
    (names.foldl (fun m name => dictInsert m name (get_concrete_fn a name)) m).lookup k
      = if k ∈ names then some (get_concrete_fn a k) else m.lookup k := by
  induction names generalizing m with
  | nil => simp
  | cons n ns ih =>
    rw [List.foldl_cons, ih]
    by_cases hk : k ∈ ns
    · simp [hk, List.mem_cons]
    · by_cases hkn : k = n
      · subst hkn
        simp [hk, dictInsert_lookup_self]
      · simp [hk, hkn, dictInsert_lookup_ne _ _ _ _ hkn]

/-! ### Claim C3: `write_out` and the `"serving_default"` alias -/

/-- C3.  `write_out` fails with the no-endpoints error exactly when zero
endpoints are registered; otherwise the emitted signature map has an
entry per registered endpoint name (bound to that endpoint's concrete
trace), always contains `"serving_default"`, bound to the
first-registered endpoint's concrete trace unless an endpoint literally
named `"serving_default"` was registered, in which case that endpoint's
own entry is kept. -/
theorem write_out_signature_map (a : Archive) :
    (write_out a = Except.error ExportError.noEndpoints ↔ a.endpoint_names = []) ∧
    (a.endpoint_names ≠ [] →
      ∃ m, write_out a = Except.ok m ∧
        (∀ name ∈ a.endpoint_names, m.lookup name = some (get_concrete_fn a name)) ∧
        (m.lookup "serving_default").isSome ∧
        ("serving_default" ∉ a.endpoint_names →
          m.lookup "serving_default"
            = some (get_concrete_fn a (a.endpoint_names.headD ""))) ∧
        ("serving_default" ∈ a.endpoint_names →
          m.lookup "serving_default" = some (get_concrete_fn a "serving_default"))) := by
  by_cases hemp : a.endpoint_names = []
  · refine ⟨⟨fun _ => hemp, fun _ => ?_⟩, fun hne => absurd hemp hne⟩
    unfold write_out
    rw [if_pos (by simp [hemp])]
  · have hisEmpty : a.endpoint_names.isEmpty = false := by
      cases hn : a.endpoint_names with
      | nil => exact absurd hn hemp
      | cons x xs => rfl
    refine ⟨⟨fun herr => ?_, fun hc => absurd hc hemp⟩, fun _ => ?_⟩
    · unfold write_out at herr
      rw [if_neg (by simp [hisEmpty])] at herr
      simp at herr
    · by_cases hsd : "serving_default" ∈ a.endpoint_names
      · refine ⟨a.endpoint_names.foldl
          (fun m name => dictInsert m name (get_concrete_fn a name)) [],
          ?_, ?_, ?_, fun hns => absurd hsd hns, fun _ => ?_⟩
        · unfold write_out
          rw [if_neg (by simp [hisEmpty])]
          simp [hsd]
        · intro name hn
          rw [write_fold_lookup]
          simp [hn]
        · rw [write_fold_lookup]
          simp [hsd]
        · rw [write_fold_lookup]
          simp [hsd]
      · refine ⟨dictInsert (a.endpoint_names.foldl
            (fun m name => dictInsert m name (get_concrete_fn a name)) [])
            "serving_default" (get_concrete_fn a (a.endpoint_names.headD "")),
          ?_, ?_, ?_, fun _ => ?_, fun hc => absurd hc hsd⟩
        · unfold write_out
          rw [if_neg (by simp [hisEmpty])]
          simp [hsd]
        · intro name hn
          have hne : name ≠ "serving_default" := fun hc => hsd (hc ▸ hn)
          rw [dictInsert_lookup_ne _ _ _ _ hne, write_fold_lookup]
          simp [hn]
        · rw [dictInsert_lookup_self]
          rfl
        · rw [dictInsert_lookup_self]

/-- A concrete archive with one registered endpoint `"serve"`. -/
def c3Archive : Archive :=
  { ExportArchive_init Backend.tensorflow with
      endpoint_names := ["serve"]
      endpoint_signatures := [("serve", [⟨0⟩])]
      endpoint_fns := [("serve", EndpointFn.decorated (Fn.generic []) [⟨0⟩])] }

/-- Witness for `write_out_signature_map`: on an archive with one
endpoint, `write_out` succeeds and the map contains `"serving_default"`. -/
theorem write_out_signature_map_witness :
    c3Archive.endpoint_names ≠ [] ∧
    ∃ m, write_out c3Archive = Except.ok m ∧ (m.lookup "serving_default").isSome := by
  refine ⟨by decide, ?_⟩
  obtain ⟨m, hm, hprops⟩ := (write_out_signature_map c3Archive).2 (by decide)
  exact ⟨m, hm, hprops.2.1⟩

/-! ### Claim C4: `add_endpoint` errors and success -/

/-- C4.  `add_endpoint` raises duplicate-endpoint-name whenever the name
is already registered; with no (truthy) signature it raises
unspecialized-function for a never-traced `tf.function` and
missing-signature for anything that is not a `tf.function`; with a fresh
name and a valid signature (or a traced `tf.function`) it registers the
endpoint. -/
theorem add_endpoint_error_behaviour (a : Archive) (name : String) (fn : Fn)
    (sig : Option (List TensorSpec)) :
    (name ∈ a.endpoint_names →
        add_endpoint a name fn sig
          = (a, some (ExportError.duplicateEndpointName name))) ∧
    (name ∉ a.endpoint_names → sigTruthy sig = false → fn = Fn.generic [] →
        add_endpoint a name fn sig = (a, some ExportError.unspecializedFunction)) ∧
    (name ∉ a.endpoint_names → sigTruthy sig = false →
        (∀ cfs, fn ≠ Fn.generic cfs) →
        add_endpoint a name fn sig = (a, some ExportError.missingSignature)) ∧
    (name ∉ a.endpoint_names → sigTruthy sig = true →
        (add_endpoint a name fn sig).2 = none ∧
        (add_endpoint a name fn sig).1.endpoint_names
          = a.endpoint_names ++ [name]) ∧
    (∀ cfs, name ∉ a.endpoint_names → sigTruthy sig = false →
        fn = Fn.generic cfs → cfs ≠ [] →
        (add_endpoint a name fn sig).2 = none ∧
        (add_endpoint a name fn sig).1.endpoint_names
          = a.endpoint_names ++ [name]) := by
  refine ⟨?_, ?_, ?_, ?_, ?_⟩
  · intro h1
    simp [add_endpoint, h1]
  · intro h1 h2 h3
    subst h3
    simp [add_endpoint, h1, h2]
  · intro h1 h2 h3
    cases fn with
    | generic cfs => exact absurd rfl (h3 cfs)
    | traceable cf => simp [add_endpoint, h1, h2]
    | concrete cf => simp [add_endpoint, h1, h2]
  · intro h1 h2
    cases hb : a.backend <;> simp [add_endpoint, h1, h2, hb]
  · intro cfs h1 h2 h3 h4
    subst h3
    simp [add_endpoint, h1, h2, h4]

/-- Witness for `add_endpoint_error_behaviour`: the four behaviours at
concrete inputs. -/
theorem add_endpoint_error_behaviour_witness :
    ("serve" ∈ c3Archive.endpoint_names ∧
      add_endpoint c3Archive "serve" (Fn.generic [⟨[], []⟩]) none
        = (c3Archive, some (ExportError.duplicateEndpointName "serve"))) ∧
    add_endpoint (ExportArchive_init Backend.tensorflow) "f" (Fn.generic []) none
      = (ExportArchive_init Backend.tensorflow, some ExportError.unspecializedFunction) ∧
    add_endpoint (ExportArchive_init Backend.tensorflow) "f" (Fn.concrete ⟨[], []⟩) none
      = (ExportArchive_init Backend.tensorflow, some ExportError.missingSignature) ∧
    (add_endpoint (ExportArchive_init Backend.tensorflow) "f"
      (Fn.generic [⟨[], []⟩]) (some [⟨0⟩])).2 = none := by
  refine ⟨⟨by decide, ?_⟩, ?_, ?_, ?_⟩
  · exact (add_endpoint_error_behaviour c3Archive "serve"
      (Fn.generic [⟨[], []⟩]) none).1 (by decide)
  · exact (add_endpoint_error_behaviour (ExportArchive_init Backend.tensorflow)
      "f" (Fn.generic []) none).2.1 (by decide) rfl rfl
  · exact (add_endpoint_error_behaviour (ExportArchive_init Backend.tensorflow)
      "f" (Fn.concrete ⟨[], []⟩) none).2.2.1 (by decide) rfl
      (fun cfs h => by cases h)
  · exact ((add_endpoint_error_behaviour (ExportArchive_init Backend.tensorflow)
      "f" (Fn.generic [⟨[], []⟩]) (some [⟨0⟩])).2.2.2.1 (by decide) rfl).1

/-! ### Claim C6: `add_endpoint` is atomic on failure -/

/-- C6.  Whenever `add_endpoint` raises, the archive is exactly as it was
before the call: in the source every `raise` precedes every mutation, so
in particular the ordered endpoint-name list and the endpoint-signature
map are unchanged. -/
theorem add_endpoint_atomic_on_failure (a : Archive) (name : String) (fn : Fn)
    (sig : Option (List TensorSpec)) (e : ExportError)
    (h : (add_endpoint a name fn sig).2 = some e) :
    (add_endpoint a name fn sig).1 = a ∧
    (add_endpoint a name fn sig).1.endpoint_names = a.endpoint_names ∧
    (add_endpoint a name fn sig).1.endpoint_signatures = a.endpoint_signatures := by
  have ha : (add_endpoint a name fn sig).1 = a := by
    by_cases h1 : name ∈ a.endpoint_names
    · simp [add_endpoint, h1]
    · by_cases h2 : sigTruthy sig = true
      · exfalso
        have hnone : (add_endpoint a name fn sig).2 = none := by
          cases hb : a.backend <;> simp [add_endpoint, h1, h2, hb]
        rw [hnone] at h
        cases h
      · have h2' : sigTruthy sig = false := by simpa using h2
        cases fn with
        | generic cfs =>
          by_cases h3 : cfs = []
          · subst h3
            simp [add_endpoint, h1, h2']
          · exfalso
            have hnone : (add_endpoint a name (Fn.generic cfs) sig).2 = none := by
              simp [add_endpoint, h1, h2', h3]
            rw [hnone] at h
            cases h
        | traceable cf => simp [add_endpoint, h1, h2']
        | concrete cf => simp [add_endpoint, h1, h2']
  exact ⟨ha, by rw [ha], by rw [ha]⟩

/-- Witness for `add_endpoint_atomic_on_failure`: a failing duplicate
registration leaves the concrete archive untouched. -/
theorem add_endpoint_atomic_on_failure_witness :
    (add_endpoint c3Archive "serve" (Fn.concrete ⟨[], []⟩) none).2
      = some (ExportError.duplicateEndpointName "serve") ∧
    (add_endpoint c3Archive "serve" (Fn.concrete ⟨[], []⟩) none).1.endpoint_names
      = c3Archive.endpoint_names := by
  refine ⟨by decide, ?_⟩
  exact (add_endpoint_atomic_on_failure c3Archive "serve" (Fn.concrete ⟨[], []⟩)
    none (ExportError.duplicateEndpointName "serve") (by decide)).2.1

/-! ### Claim C10: empty `input_signature` behaves like an omitted one -/

/-- C10.  `add_endpoint` distinguishes the two paths by Python truthiness
of `input_signature`, so passing an empty signature list is treated
exactly like omitting the argument: the result is identical, no
signature is recorded, and the call raises missing-signature unless `fn`
is an already-traced `tf.function` (in which case it registers). -/
theorem add_endpoint_empty_signature_like_none (a : Archive) (name : String) (fn : Fn) :
    add_endpoint a name fn (some []) = add_endpoint a name fn none ∧
    (add_endpoint a name fn (some [])).1.endpoint_signatures
      = a.endpoint_signatures ∧
    (name ∉ a.endpoint_names → (∀ cfs, fn ≠ Fn.generic cfs) →
        (add_endpoint a name fn (some [])).2 = some ExportError.missingSignature) ∧
    (∀ cfs, name ∉ a.endpoint_names → fn = Fn.generic cfs → cfs ≠ [] →
        (add_endpoint a name fn (some [])).2 = none) := by
  refine ⟨rfl, ?_, ?_, ?_⟩
  · by_cases h1 : name ∈ a.endpoint_names
    · simp [add_endpoint, h1]
    · cases fn with
      | generic cfs =>
        by_cases h3 : cfs = []
        · subst h3
          simp [add_endpoint, h1, sigTruthy]
        · simp [add_endpoint, h1, h3, sigTruthy]
      | traceable cf => simp [add_endpoint, h1, sigTruthy]
      | concrete cf => simp [add_endpoint, h1, sigTruthy]
  · intro h1 h2
    cases fn with
    | generic cfs => exact absurd rfl (h2 cfs)
    | traceable cf => simp [add_endpoint, h1, sigTruthy]
    | concrete cf => simp [add_endpoint, h1, sigTruthy]
  · intro cfs h1 h3 h4
    subst h3
    simp [add_endpoint, h1, h4, sigTruthy]

/-- Witness for `add_endpoint_empty_signature_like_none`. -/
theorem add_endpoint_empty_signature_witness :
    "f" ∉ (ExportArchive_init Backend.tensorflow).endpoint_names ∧
    add_endpoint (ExportArchive_init Backend.tensorflow) "f"
        (Fn.concrete ⟨[], []⟩) (some [])
      = add_endpoint (ExportArchive_init Backend.tensorflow) "f"
        (Fn.concrete ⟨[], []⟩) none ∧
    (add_endpoint (ExportArchive_init Backend.tensorflow) "f"
        (Fn.concrete ⟨[], []⟩) (some [])).2 = some ExportError.missingSignature := by
  refine ⟨by decide,
    (add_endpoint_empty_signature_like_none (ExportArchive_init Backend.tensorflow)
      "f" (Fn.concrete ⟨[], []⟩)).1, ?_⟩
  exact (add_endpoint_empty_signature_like_none (ExportArchive_init Backend.tensorflow)
    "f" (Fn.concrete ⟨[], []⟩)).2.2.1 (by decide) (fun cfs h => by cases h)

/-! ### The reload path: `TFSMLayer` -/

/-- A function object of a loaded SavedModel artifact: its trace content
(`fn`, as consumed by `_list_variables_used_by_fns`) and its callable
behaviour, with tensors modelled as numeric tokens. -/
structure LoadedFn where
  fn : Fn
  apply : Nat → Nat

/-- A loaded SavedModel artifact: named attributes (`hasattr`/`getattr`)
and the `signatures` mapping. -/
structure ReloadedObj where
  attrs : List (String × LoadedFn)
  signatures : List (String × LoadedFn)

/-- The reloaded layer.  `weights_trainable` / `weights_non_trainable`
model the weight lists the base `Layer` keeps for the weights registered
through `_add_existing_weight`. -/
structure TFSMLayer where
  filepath : String
  call_endpoint : String
  call_training_endpoint : Option String
  call_endpoint_fn : LoadedFn
  call_training_endpoint_fn : Option LoadedFn
  weights_trainable : List Variable
  weights_non_trainable : List Variable
  built : Bool

/-- Python truthiness of the optional training-endpoint name: `None` and
the empty string are both falsy. -/
def optStrTruthy : Option String → Bool
  | none => false
  | some s => !s.isEmpty

/-- Modelled from the spec: `Layer._track_variable` (the base-layer
method called by `_add_existing_weight`) is not part of this module's
source.  Spec 4.6: "register each discovered parameter as an owned
weight of the new layer (trainable ones as trainable, others as
frozen)". -/
def track_variable (l : TFSMLayer) (v : Variable) : TFSMLayer :=
  if v.trainable = true then
    { l with weights_trainable := l.weights_trainable ++ [v] }
  else
    { l with weights_non_trainable := l.weights_non_trainable ++ [v] }

/-- Constructor `TFSMLayer.__init__` (TensorFlow backend; the artifact at `filepath`
has already been loaded into `obj` by `tf.saved_model.load`): resolve
the call endpoint (attribute first, then the signatures map), resolve
the optional training endpoint the same way, then register the weights
discovered by tracing both resolved endpoints. -/
def TFSMLayer_init (obj : ReloadedObj) (filepath : String) (call_endpoint : String)
    (call_training_endpoint : Option String) : Except ExportError TFSMLayer :=
  let callRes : Except ExportError LoadedFn :=
    match obj.attrs.lookup call_endpoint with
    | some f => Except.ok f
    | none =>
      match obj.signatures.lookup call_endpoint with
      | some f => Except.ok f
      | none => Except.error (ExportError.endpointNotFound call_endpoint
          (obj.signatures.map Prod.fst))
  match callRes with
  | Except.error e => Except.error e
  | Except.ok call_endpoint_fn =>
    let trainRes : Except ExportError (Option LoadedFn) :=
      if optStrTruthy call_training_endpoint then
        match obj.attrs.lookup (call_training_endpoint.getD "") with
        | some f => Except.ok (some f)
        | none =>
          match obj.signatures.lookup (call_training_endpoint.getD "") with
          | some f => Except.ok (some f)
          | none => Except.error (ExportError.endpointNotFound
              (call_training_endpoint.getD "") (obj.signatures.map Prod.fst))
      else Except.ok none
    match trainRes with
    | Except.error e => Except.error e
    | Except.ok call_training_endpoint_fn =>
      let all_fns : List Fn :=
        [call_endpoint_fn.fn] ++
          (match call_training_endpoint_fn with
            | some f => [f.fn]
            | none => [])
      let collected := list_variables_used_by_fns all_fns
      let base : TFSMLayer :=
        { filepath := filepath
          call_endpoint := call_endpoint
          call_training_endpoint := call_training_endpoint
          call_endpoint_fn := call_endpoint_fn
          call_training_endpoint_fn := call_training_endpoint_fn
          weights_trainable := []
          weights_non_trainable := []
          built := false }
      let l1 := collected.1.foldl track_variable base
      let l2 := collected.2.foldl track_variable l1
      Except.ok { l2 with built := true }

/-- Method `TFSMLayer.call(inputs, training)`.  The `none` fallback in the inner
match is unreachable for layers produced by `TFSMLayer_init`, which sets
the training function whenever the training-endpoint name is truthy. -/
def TFSMLayer.call (l : TFSMLayer) (inputs : Nat) (training : Bool) : Nat :=
  if training then
    if optStrTruthy l.call_training_endpoint then
      match l.call_training_endpoint_fn with
      | some f => f.apply inputs
      | none => l.call_endpoint_fn.apply inputs
    else l.call_endpoint_fn.apply inputs
  else l.call_endpoint_fn.apply inputs

/-- The spec's two-step endpoint-resolution rule (spec 4.6): direct named
attribute first, then the signatures map, else endpoint-not-found
listing the available names. -/
def resolveEndpoint (obj : ReloadedObj) (name : String) : Except ExportError LoadedFn :=
  match obj.attrs.lookup name with
  | some f => Except.ok f
  | none =>
    match obj.signatures.lookup name with
    | some f => Except.ok f
    | none => Except.error (ExportError.endpointNotFound name
        (obj.signatures.map Prod.fst))

/-- The functions `TFSMLayer_init` traces for weight registration, given
the resolved call endpoint and optional resolved training endpoint. -/
def mkAllFns (f : LoadedFn) (tfn : Option LoadedFn) : List Fn :=
  [f.fn] ++ (match tfn with | some g => [g.fn] | none => [])

/-- The layer `TFSMLayer_init` returns once both endpoints resolved. -/
def mkTFSMLayer (fp ce : String) (cte : Option String) (f : LoadedFn)
    (tfn : Option LoadedFn) : TFSMLayer :=
  { ((list_variables_used_by_fns (mkAllFns f tfn)).2.foldl track_variable
      ((list_variables_used_by_fns (mkAllFns f tfn)).1.foldl track_variable
        { filepath := fp
          call_endpoint := ce
          call_training_endpoint := cte
          call_endpoint_fn := f
          call_training_endpoint_fn := tfn
          weights_trainable := []
          weights_non_trainable := []
          built := false })) with built := true }

/-- The function list whose traces `TFSMLayer_init` registers as weights,
expressed through the resolution rule. -/
def initAllFns (obj : ReloadedObj) (ce : String) (cte : Option String) : List Fn :=
  (match resolveEndpoint obj ce with
    | Except.ok f => [f.fn]
    | Except.error _ => []) ++
  (if optStrTruthy cte then
     match resolveEndpoint obj (cte.getD "") with
     | Except.ok f => [f.fn]
     | Except.error _ => []
   else [])

/-! ### Resolution lemmas -/

lemma resolveEndpoint_error_inv {obj : ReloadedObj} {nm : String} {e : ExportError}
    (h : resolveEndpoint obj nm = Except.error e) :
    obj.attrs.lookup nm = none ∧ obj.signatures.lookup nm = none ∧
    e = ExportError.endpointNotFound nm (obj.signatures.map Prod.fst) := by
  unfold resolveEndpoint at h
  cases h1 : obj.attrs.lookup nm with
  | some f => rw [h1] at h; cases h
  | none =>
    rw [h1] at h
    cases h2 : obj.signatures.lookup nm with
    | some f => rw [h2] at h; cases h
    | none =>
      rw [h2] at h
      exact ⟨rfl, rfl, (Except.error.inj h).symm⟩

lemma resolveEndpoint_ok_inv {obj : ReloadedObj} {nm : String} {f : LoadedFn}
    (h : resolveEndpoint obj nm = Except.ok f) :
    obj.attrs.lookup nm = some f ∨
    (obj.attrs.lookup nm = none ∧ obj.signatures.lookup nm = some f) := by
  unfold resolveEndpoint at h
  cases h1 : obj.attrs.lookup nm with
  | some g =>
    rw [h1] at h
    exact Or.inl (by rw [Except.ok.inj h])
  | none =>
    rw [h1] at h
    cases h2 : obj.signatures.lookup nm with
    | some g =>
      rw [h2] at h
      exact Or.inr ⟨rfl, by rw [Except.ok.inj h]⟩
    | none =>
      rw [h2] at h
      cases h

lemma tfsm_init_call_error (obj : ReloadedObj) (fp ce : String) (cte : Option String)
    (e : ExportError) (h : resolveEndpoint obj ce = Except.error e) :
    TFSMLayer_init obj fp ce cte = Except.error e := by
  obtain ⟨h1, h2, he⟩ := resolveEndpoint_error_inv h
  subst he
  simp [TFSMLayer_init, h1, h2]

lemma tfsm_init_ok_no_training (obj : ReloadedObj) (fp ce : String) (cte : Option String)
    (f : LoadedFn) (h : resolveEndpoint obj ce = Except.ok f)
    (htr : optStrTruthy cte = false) :
    TFSMLayer_init obj fp ce cte = Except.ok (mkTFSMLayer fp ce cte f none) := by
  rcases resolveEndpoint_ok_inv h with h1 | ⟨h1, h2⟩
  · simp [TFSMLayer_init, h1, htr, mkTFSMLayer, mkAllFns]
  · simp [TFSMLayer_init, h1, h2, htr, mkTFSMLayer, mkAllFns]

lemma tfsm_init_training_error (obj : ReloadedObj) (fp ce : String) (cte : Option String)
    (f : LoadedFn) (e : ExportError)
    (h : resolveEndpoint obj ce = Except.ok f) (htr : optStrTruthy cte = true)
    (h3 : resolveEndpoint obj (cte.getD "") = Except.error e) :
    TFSMLayer_init obj fp ce cte = Except.error e := by
  obtain ⟨h4, h5, he⟩ := resolveEndpoint_error_inv h3
  subst he
  rcases resolveEndpoint_ok_inv h with h1 | ⟨h1, h2⟩
  · simp [TFSMLayer_init, h1, htr, h4, h5]
  · simp [TFSMLayer_init, h1, h2, htr, h4, h5]

lemma tfsm_init_ok_training (obj : ReloadedObj) (fp ce : String) (cte : Option String)
    (f g : LoadedFn)
    (h : resolveEndpoint obj ce = Except.ok f) (htr : optStrTruthy cte = true)
    (h3 : resolveEndpoint obj (cte.getD "") = Except.ok g) :
    TFSMLayer_init obj fp ce cte = Except.ok (mkTFSMLayer fp ce cte f (some g)) := by
  rcases resolveEndpoint_ok_inv h with h1 | ⟨h1, h2⟩ <;>
    rcases resolveEndpoint_ok_inv h3 with h4 | ⟨h4, h5⟩ <;>
    simp [TFSMLayer_init, mkTFSMLayer, mkAllFns, htr, *]

/-! ### Claim C7: reload-time endpoint resolution -/

/-- C7.  `TFSMLayer.__init__` resolves the call endpoint by checking it
as a direct attribute of the loaded artifact first, falling back to the
artifact's signatures map, and fails with endpoint-not-found listing the
available signature names when neither resolves; the optional training
endpoint follows the same two-step rule with the same error, and every
error `TFSMLayer_init` can raise is such an endpoint-not-found error. -/
theorem tfsm_init_two_step_resolution (obj : ReloadedObj) (fp ce : String)
    (cte : Option String) :
    (∀ f, obj.attrs.lookup ce = some f → resolveEndpoint obj ce = Except.ok f) ∧
    (obj.attrs.lookup ce = none → ∀ f, obj.signatures.lookup ce = some f →
        resolveEndpoint obj ce = Except.ok f) ∧
    (obj.attrs.lookup ce = none → obj.signatures.lookup ce = none →
        resolveEndpoint obj ce = Except.error
          (ExportError.endpointNotFound ce (obj.signatures.map Prod.fst))) ∧
    (∀ e, resolveEndpoint obj ce = Except.error e →
        TFSMLayer_init obj fp ce cte = Except.error e) ∧
    (∀ f e, resolveEndpoint obj ce = Except.ok f → optStrTruthy cte = true →
        resolveEndpoint obj (cte.getD "") = Except.error e →
        TFSMLayer_init obj fp ce cte = Except.error e) ∧
    (∀ e, TFSMLayer_init obj fp ce cte = Except.error e →
        ∃ nm, e = ExportError.endpointNotFound nm (obj.signatures.map Prod.fst)) := by
  refine ⟨?_, ?_, ?_, ?_, ?_, ?_⟩
  · intro f h1
    simp [resolveEndpoint, h1]
  · intro h1 f h2
    simp [resolveEndpoint, h1, h2]
  · intro h1 h2
    simp [resolveEndpoint, h1, h2]
  · exact fun e he => tfsm_init_call_error obj fp ce cte e he
  · exact fun f e h1 h2 h3 => tfsm_init_training_error obj fp ce cte f e h1 h2 h3
  · intro e he
    cases hr : resolveEndpoint obj ce with
    | error e1 =>
      rw [tfsm_init_call_error obj fp ce cte e1 hr] at he
      have he1 : e1 = e := Except.error.inj he
      obtain ⟨_, _, h3⟩ := resolveEndpoint_error_inv hr
      exact ⟨ce, by rw [← he1]; exact h3⟩
    | ok f =>
      cases htr : optStrTruthy cte with
      | false =>
        rw [tfsm_init_ok_no_training obj fp ce cte f hr htr] at he
        cases he
      | true =>
        cases hr2 : resolveEndpoint obj (cte.getD "") with
        | error e2 =>
          rw [tfsm_init_training_error obj fp ce cte f e2 hr htr hr2] at he
          have he2 : e2 = e := Except.error.inj he
          obtain ⟨_, _, h3⟩ := resolveEndpoint_error_inv hr2
          exact ⟨cte.getD "", by rw [← he2]; exact h3⟩
        | ok g =>
          rw [tfsm_init_ok_training obj fp ce cte f g hr htr hr2] at he
          cases he

/-- A loaded artifact with endpoint `"serve"` as an attribute and
`"serving_default"` in the signatures map. -/
def c7Obj : ReloadedObj :=
  { attrs := [("serve", ⟨Fn.generic [⟨[], []⟩], fun x => x⟩)]
    signatures := [("serving_default", ⟨Fn.generic [⟨[], []⟩], fun x => x⟩)] }

/-- Witness for `tfsm_init_two_step_resolution`: resolving a nonexistent
endpoint fails with `endpointNotFound` listing the available names, and
the whole `__init__` propagates that error. -/
theorem tfsm_init_two_step_resolution_witness :
    resolveEndpoint c7Obj "missing"
      = Except.error (ExportError.endpointNotFound "missing" ["serving_default"]) ∧
    TFSMLayer_init c7Obj "p" "missing" none
      = Except.error (ExportError.endpointNotFound "missing" ["serving_default"]) := by
  have hres := (tfsm_init_two_step_resolution c7Obj "p" "missing" none).2.2.1 rfl rfl
  exact ⟨hres, (tfsm_init_two_step_resolution c7Obj "p" "missing" none).2.2.2.1 _ hres⟩

/-! ### Claim C8: `TFSMLayer.call` dispatch -/

/-- C8.  `call(inputs, training)` invokes the configured training
endpoint function exactly when `training` is true and a training
endpoint was configured (truthy name), and invokes the call endpoint
function in every other case. -/
theorem tfsm_call_dispatch (l : TFSMLayer) (inputs : Nat) (training : Bool) :
    (training = true → optStrTruthy l.call_training_endpoint = true →
      ∀ f, l.call_training_endpoint_fn = some f →
        l.call inputs training = f.apply inputs) ∧
    (training = false ∨ optStrTruthy l.call_training_endpoint = false →
      l.call inputs training = l.call_endpoint_fn.apply inputs) := by
  constructor
  · intro ht htr f hf
    subst ht
    simp [TFSMLayer.call, htr, hf]
  · rintro (ht | htr)
    · subst ht
      simp [TFSMLayer.call]
    · by_cases ht : training = true
      · subst ht
        simp [TFSMLayer.call, htr]
      · have ht' : training = false := by simpa using ht
        subst ht'
        simp [TFSMLayer.call]

/-- A reloaded layer with distinguishable call and training functions. -/
def c8Layer : TFSMLayer :=
  { filepath := "p"
    call_endpoint := "serve"
    call_training_endpoint := some "train"
    call_endpoint_fn := ⟨Fn.generic [], fun x => x + 1⟩
    call_training_endpoint_fn := some ⟨Fn.generic [], fun x => x * 2⟩
    weights_trainable := []
    weights_non_trainable := []
    built := true }

/-- Witness for `tfsm_call_dispatch`: on `c8Layer`, a training call goes
through the doubling training endpoint and an inference call through the
incrementing call endpoint. -/
theorem tfsm_call_dispatch_witness :
    c8Layer.call 3 true = 6 ∧ c8Layer.call 3 false = 4 := by
  constructor
  · have h := (tfsm_call_dispatch c8Layer 3 true).1 rfl rfl
      ⟨Fn.generic [], fun x => x * 2⟩ rfl
    rw [h]
  · have h := (tfsm_call_dispatch c8Layer 3 false).2 (Or.inl rfl)
    rw [h]
    rfl

/-! ### Claim C9: reloaded weights are the traced parameter closure -/

lemma foldl_track_variable_trainable (L : List Variable) (l : TFSMLayer)
    (hL : ∀ v ∈ L, v.trainable = true) :
    L.foldl track_variable l
      = { l with weights_trainable := l.weights_trainable ++ L } := by
  induction L generalizing l with
  | nil => simp
  | cons v L ih =>
    rw [List.foldl_cons]
    have hv : v.trainable = true := hL v (List.mem_cons_self _ _)
    have hstep : track_variable l v
        = { l with weights_trainable := l.weights_trainable ++ [v] } := by
      unfold track_variable
      rw [if_pos hv]
    rw [hstep, ih _ (fun w hw => hL w (List.mem_cons_of_mem _ hw))]
    simp

lemma foldl_track_variable_non_trainable (L : List Variable) (l : TFSMLayer)
    (hL : ∀ v ∈ L, v.trainable = false) :
    L.foldl track_variable l
      = { l with weights_non_trainable := l.weights_non_trainable ++ L } := by
  induction L generalizing l with
  | nil => simp
  | cons v L ih =>
    rw [List.foldl_cons]
    have hv : v.trainable = false := hL v (List.mem_cons_self _ _)
    have hstep : track_variable l v
        = { l with weights_non_trainable := l.weights_non_trainable ++ [v] } := by
      unfold track_variable
      rw [if_neg (by simp [hv])]
    rw [hstep, ih _ (fun w hw => hL w (List.mem_cons_of_mem _ hw))]
    simp

lemma mkTFSMLayer_weights_eq (fp ce : String) (cte : Option String) (f : LoadedFn)
    (tfn : Option LoadedFn)
    (ht : ∀ v ∈ (list_variables_used_by_fns (mkAllFns f tfn)).1, v.trainable = true)
    (hn : ∀ v ∈ (list_variables_used_by_fns (mkAllFns f tfn)).2, v.trainable = false) :
    (mkTFSMLayer fp ce cte f tfn).weights_trainable
        = (list_variables_used_by_fns (mkAllFns f tfn)).1 ∧
    (mkTFSMLayer fp ce cte f tfn).weights_non_trainable
        = (list_variables_used_by_fns (mkAllFns f tfn)).2 := by
  unfold mkTFSMLayer
  rw [foldl_track_variable_trainable _ _ ht]
  rw [foldl_track_variable_non_trainable _ _ hn]
  simp

/-- C9.  Under the same trace-consistency hypotheses as C1, a reloaded
layer's registered weights are exactly the identity-deduplicated union
of the parameters referenced by its resolved call endpoint (and training
endpoint when one is configured): trainable parameters registered as
trainable, the rest as non-trainable, each distinct identity exactly
once. -/
theorem tfsm_init_registers_endpoint_closure (obj : ReloadedObj) (fp ce : String)
    (cte : Option String) (l : TFSMLayer) (flag : Nat → Bool)
    (hinit : TFSMLayer_init obj fp ce cte = Except.ok l)
    (hcons : ∀ fn ∈ initAllFns obj ce cte, ∀ cf ∈ fn.concreteFns,
        cf.trainable_variables = cf.vars.filter (fun v => v.trainable))
    (hfl : ∀ v ∈ encVars (initAllFns obj ce cte), v.trainable = flag v.vid) :
    l.weights_trainable
      = firstDedupBy [] ((encVars (initAllFns obj ce cte)).filter (fun v => v.trainable)) ∧
    l.weights_non_trainable
      = firstDedupBy [] ((encVars (initAllFns obj ce cte)).filter (fun v => !v.trainable)) ∧
    ((l.weights_trainable ++ l.weights_non_trainable).map (fun v => v.vid)).Nodup ∧
    (∀ v ∈ l.weights_trainable, v.trainable = true) ∧
    (∀ v ∈ l.weights_non_trainable, v.trainable = false) ∧
    (∀ v ∈ encVars (initAllFns obj ce cte),
      v.vid ∈ (l.weights_trainable ++ l.weights_non_trainable).map (fun v => v.vid)) := by
  cases hr : resolveEndpoint obj ce with
  | error e =>
    rw [tfsm_init_call_error obj fp ce cte e hr] at hinit
    cases hinit
  | ok f =>
    cases htr : optStrTruthy cte with
    | false =>
      rw [tfsm_init_ok_no_training obj fp ce cte f hr htr] at hinit
      have hl : l = mkTFSMLayer fp ce cte f none := (Except.ok.inj hinit).symm
      subst hl
      have hfns : initAllFns obj ce cte = mkAllFns f none := by
        unfold initAllFns mkAllFns
        rw [hr, htr]
        rfl
      rw [hfns] at hcons hfl ⊢
      obtain ⟨hc1, hc2⟩ := collect_spec (mkAllFns f none) flag hcons hfl
      have hft : ∀ v ∈ (list_variables_used_by_fns (mkAllFns f none)).1,
          v.trainable = true := by
        intro v hv
        rw [hc1] at hv
        exact (List.mem_filter.mp (mem_of_mem_firstDedupBy hv)).2
      have hfn : ∀ v ∈ (list_variables_used_by_fns (mkAllFns f none)).2,
          v.trainable = false := by
        intro v hv
        rw [hc2] at hv
        have := (List.mem_filter.mp (mem_of_mem_firstDedupBy hv)).2
        simpa using this
      obtain ⟨hw1, hw2⟩ := mkTFSMLayer_weights_eq fp ce cte f none hft hfn
      exact collect_closure_conclusion (mkAllFns f none) flag hfl _ _
        (hw1.trans hc1) (hw2.trans hc2)
    | true =>
      cases hr2 : resolveEndpoint obj (cte.getD "") with
      | error e2 =>
        rw [tfsm_init_training_error obj fp ce cte f e2 hr htr hr2] at hinit
        cases hinit
      | ok g =>
        rw [tfsm_init_ok_training obj fp ce cte f g hr htr hr2] at hinit
        have hl : l = mkTFSMLayer fp ce cte f (some g) := (Except.ok.inj hinit).symm
        subst hl
        have hfns : initAllFns obj ce cte = mkAllFns f (some g) := by
          unfold initAllFns mkAllFns
          rw [hr, htr, hr2]
          rfl
        rw [hfns] at hcons hfl ⊢
        obtain ⟨hc1, hc2⟩ := collect_spec (mkAllFns f (some g)) flag hcons hfl
        have hft : ∀ v ∈ (list_variables_used_by_fns (mkAllFns f (some g))).1,
            v.trainable = true := by
          intro v hv
          rw [hc1] at hv
          exact (List.mem_filter.mp (mem_of_mem_firstDedupBy hv)).2
        have hfn : ∀ v ∈ (list_variables_used_by_fns (mkAllFns f (some g))).2,
            v.trainable = false := by
          intro v hv
          rw [hc2] at hv
          have := (List.mem_filter.mp (mem_of_mem_firstDedupBy hv)).2
          simpa using this
        obtain ⟨hw1, hw2⟩ := mkTFSMLayer_weights_eq fp ce cte f (some g) hft hfn
        exact collect_closure_conclusion (mkAllFns f (some g)) flag hfl _ _
          (hw1.trans hc1) (hw2.trans hc2)

/-- Loaded artifact whose single endpoint `"serve"` references trainable
identities 0 and 1 and non-trainable identity 2. -/
def c9Obj : ReloadedObj :=
  { attrs := [("serve",
      ⟨Fn.generic [⟨[⟨0, true⟩, ⟨1, true⟩], [⟨0, true⟩, ⟨1, true⟩, ⟨2, false⟩]⟩],
        fun x => x⟩)]
    signatures := [] }

/-- Trainable flag by identity for `c9Obj`. -/
def c9Flag : Nat → Bool := fun i => decide (i < 2)

/-- The layer reloaded from `c9Obj`. -/
def c9Layer : TFSMLayer :=
  match TFSMLayer_init c9Obj "p" "serve" none with
  | Except.ok l => l
  | Except.error _ =>
    { filepath := ""
      call_endpoint := ""
      call_training_endpoint := none
      call_endpoint_fn := ⟨Fn.generic [], fun x => x⟩
      call_training_endpoint_fn := none
      weights_trainable := []
      weights_non_trainable := []
      built := false }

/-- Witness for `tfsm_init_registers_endpoint_closure`: reloading an
artifact whose endpoint references 2 trainable and 1 non-trainable
parameters yields 2 trainable and 1 non-trainable registered weights. -/
theorem tfsm_init_registers_endpoint_closure_witness :
    TFSMLayer_init c9Obj "p" "serve" none = Except.ok c9Layer ∧
    c9Layer.weights_trainable.length = 2 ∧
    c9Layer.weights_non_trainable.length = 1 := by
  have hinit : TFSMLayer_init c9Obj "p" "serve" none = Except.ok c9Layer := rfl
  refine ⟨hinit, ?_, ?_⟩
  · have h := (tfsm_init_registers_endpoint_closure c9Obj "p" "serve" none c9Layer
      c9Flag hinit (by decide) (by decide)).1
    rw [h]
    rfl
  · have h := (tfsm_init_registers_endpoint_closure c9Obj "p" "serve" none c9Layer
      c9Flag hinit (by decide) (by decide)).2.1
    rw [h]
    rfl

end KerasExport
